import Mathlib

/-!
Shallow embedding of the agent-swap quote-aggregation and historical-memory
core (Rust sources: `src/swap/raydium.rs`, `src/swap/orca.rs`,
`src/swap/mod.rs`, `src/agent/memory.rs`, `src/lib.rs`).

Modelling conventions:
* `Pubkey` is an abstract identifier, modelled as `Nat`.
* Rust `u64`/`u128` values are modelled as `Nat`; where the source performs a
  truncating `as u64` cast the embedding takes the value `% 2 ^ 64`; where
  64-bit overflow of an intermediate matters (the `calculate_output` quote
  math) a separate wrapped variant and an explicit fits-in-u64 predicate are
  given.
* Rust `f64` quantities used by the Memory Store metrics (`success rate`,
  `avg_price_impact`, `rate`) are modelled as exact rationals `ℚ`; every
  concrete value these claims mention (0, 1/2, a first-observation average)
  is exactly representable in binary floating point, and the f64 operations
  producing them are exact there.
* The truncating f64 price-impact cast
  `((amount_in as f64 / reserve as f64) * 10000.0) as u16` is modelled as the
  integer floor `amount_in * 10000 / reserve`; the two agree on all inputs
  used in this development.
* `HashMap`s are modelled as association lists (insert = cons at the front,
  lookup = first match), which is observationally equivalent for lookup.
* A Rust panic (e.g. `Vec::remove(0)` on an empty vector) is modelled by
  `Option.none`; `anyhow`/`AgentSwapError` failures are modelled by `Except`
  errors or are out of the modelled fragment (the system-clock error path).
-/

/-- Solana public key, modelled as an abstract identifier. -/
abbrev Pubkey := Nat

/-- `DexType` from `src/swap/mod.rs`: the supported DEX venues. -/
inductive DexType where
  | raydium
  | orca
deriving DecidableEq, Repr

/-- First-match association-list lookup (the model of `HashMap::get`). -/
def lookupA {α β : Type} [DecidableEq α] : List (α × β) → α → Option β
  | [], _ => none
  | (k, v) :: rest, key => if key = k then some v else lookupA rest key

/-- Errors surfaced by the modelled fragment.  The source uses `anyhow`
string errors; `poolNotFound` is Raydium's "Pool not found",
`whirlpoolNotFound` is Orca's "Whirlpool not found", and `noValidQuotes` is
the aggregator's "No valid quotes found". -/
inductive SwapError where
  | poolNotFound
  | whirlpoolNotFound
  | noValidQuotes
deriving DecidableEq, Repr

/-- `PoolState` from `src/swap/raydium.rs`. -/
structure PoolState where
  address : Pubkey
  token_a : Pubkey
  token_b : Pubkey
  reserve_a : Nat
  reserve_b : Nat
  fees_bps : Nat
deriving DecidableEq, Repr

/-- `RaydiumQuote` from `src/swap/raydium.rs`. -/
structure RaydiumQuote where
  amount_in : Nat
  amount_out : Nat
  price_impact_bps : Nat
  pool : Pubkey
  minimum_out : Nat
deriving DecidableEq, Repr

/-- The Raydium `Client` from `src/swap/raydium.rs` (re-exported as
`RaydiumClient` by `src/swap/mod.rs`); only the pool cache is relevant to the
modelled fragment (`program_id` and `fee_account` are static constants). -/
structure RaydiumClient where
  pools : List ((Pubkey × Pubkey) × PoolState)
deriving Repr

/-- `Client::get_pool` (raydium.rs): looks the pair up ordered, then
reversed. -/
def RaydiumClient.get_pool (c : RaydiumClient) (token_a token_b : Pubkey) :
    Option PoolState :=
  (lookupA c.pools (token_a, token_b)).orElse
    fun _ => lookupA c.pools (token_b, token_a)

/-- The exact integer value of the arithmetic written in
`Client::calculate_output` (raydium.rs, lines 136–155): returns
`(amount_out, price_impact)`.  This is the ideal (unbounded) reference
value only: the source computes the first component in `u64` with no
widening, so the machine agrees with this value exactly when
`calculateOutputFitsU64` holds and otherwise wraps (release) or panics
(debug) — the faithful machine semantics is `calculateOutputWrapped`,
which the adapter model below uses.  The price impact is the modelled
floor of the source's f64 expression. -/
def calculateOutput (amount_in reserve_in reserve_out fees_bps : Nat) :
    Nat × Nat :=
  let amount_with_fees := amount_in * (10000 - fees_bps) / 10000
  let numerator := amount_with_fees * reserve_out
  let denominator := reserve_in + amount_with_fees
  let amount_out := numerator / denominator
  let price_impact := amount_in * 10000 / reserve_in
  (amount_out, price_impact)

/-- `u64::MAX`. -/
def u64Max : Nat := 2 ^ 64 - 1

/-- The proposition that every `u64` intermediate of
`Client::calculate_output` (the fee product, the numerator product, and the
denominator sum) stays within `u64`, as the spec demands of 128-bit-widened
arithmetic.  The source performs these operations directly in `u64`. -/
def calculateOutputFitsU64
    (amount_in reserve_in reserve_out fees_bps : Nat) : Prop :=
  amount_in * (10000 - fees_bps) ≤ u64Max ∧
  amount_in * (10000 - fees_bps) / 10000 * reserve_out ≤ u64Max ∧
  reserve_in + amount_in * (10000 - fees_bps) / 10000 ≤ u64Max

instance (amount_in reserve_in reserve_out fees_bps : Nat) :
    Decidable
      (calculateOutputFitsU64 amount_in reserve_in reserve_out fees_bps) := by
  unfold calculateOutputFitsU64; infer_instance

/-- `Client::calculate_output`'s `amount_out` under release-mode `u64`
wrap-around semantics: each `u64` multiplication and addition is taken
`% 2 ^ 64` (in debug builds the same overflow panics instead). -/
def calculateOutputWrapped
    (amount_in reserve_in reserve_out fees_bps : Nat) : Nat :=
  let amount_with_fees := amount_in * (10000 - fees_bps) % 2 ^ 64 / 10000
  let numerator := amount_with_fees * reserve_out % 2 ^ 64
  let denominator := (reserve_in + amount_with_fees) % 2 ^ 64
  numerator / denominator

/-- `Client::get_quote` (raydium.rs): pool lookup, AMM output, 1% slippage.
All `u64` arithmetic carries the release-mode wrap-around semantics: the
`calculate_output` products/sum via `calculateOutputWrapped`, and the
slippage product `amount_out * 99` as `% 2 ^ 64` (each such overflow panics
instead in debug builds). -/
def RaydiumClient.getQuote (c : RaydiumClient)
    (token_in token_out : Pubkey) (amount : Nat) :
    Except SwapError RaydiumQuote :=
  match c.get_pool token_in token_out with
  | none => .error .poolNotFound
  | some pool =>
    let amount_out :=
      calculateOutputWrapped amount pool.reserve_a pool.reserve_b
        pool.fees_bps
    let price_impact := amount * 10000 / pool.reserve_a
    let minimum_out := amount_out * 99 % 2 ^ 64 / 100
    .ok { amount_in := amount, amount_out := amount_out,
          price_impact_bps := price_impact, pool := pool.address,
          minimum_out := minimum_out }

/-- `WhirlpoolState` from `src/swap/orca.rs`. -/
structure WhirlpoolState where
  address : Pubkey
  token_a : Pubkey
  token_b : Pubkey
  tick_current_index : Int
  tick_spacing : Nat
  fee_rate : Nat
  protocol_fee_rate : Nat
  liquidity : Nat
deriving DecidableEq, Repr

/-- `OrcaQuote` from `src/swap/orca.rs`.  The `tick_arrays` field (three
freshly derived addresses from `Pubkey::new_unique`) is omitted: it is
dropped by the aggregator's `convert_orca_quote` and no claim depends on
it. -/
structure OrcaQuote where
  amount_in : Nat
  amount_out : Nat
  price_impact_bps : Nat
  pool : Pubkey
  minimum_out : Nat
deriving DecidableEq, Repr

/-- The Orca `Client` from `src/swap/orca.rs` (re-exported as `OrcaClient`);
only the whirlpool cache is relevant to the modelled fragment. -/
structure OrcaClient where
  whirlpools : List ((Pubkey × Pubkey) × WhirlpoolState)
deriving Repr

/-- `Client::get_whirlpool` (orca.rs): ordered lookup, then reversed. -/
def OrcaClient.get_whirlpool (c : OrcaClient) (token_a token_b : Pubkey) :
    Option WhirlpoolState :=
  (lookupA c.whirlpools (token_a, token_b)).orElse
    fun _ => lookupA c.whirlpools (token_b, token_a)

/-- `Client::simulate_swap`'s output amount (orca.rs):
`amount_in * liquidity / 10^12`, with the `u128` product wrapped
`% 2 ^ 128` (release semantics; debug panics on that overflow). -/
def orcaSimulateSwapOut (amount_in liquidity : Nat) : Nat :=
  amount_in * liquidity % 2 ^ 128 / 10 ^ 12

/-- `Client::get_quote` with `Client::calculate_output` inlined (orca.rs):
fee deduction, simplified CL simulation, truncating `as u64` cast of the
output, 1% slippage.  Machine semantics are carried explicitly: the `u16`
subtraction `10000 - fee_rate - protocol_fee_rate` wraps `% 2 ^ 16` (as an
integer remainder, matching release wrapping subtraction; debug panics on
underflow), its `u128` product with the amount wraps `% 2 ^ 128`, and the
`u64` slippage product `amount_out * 99` wraps `% 2 ^ 64`.  The side
outputs irrelevant to the unified quote (`sqrt_price_limit`, tick arrays)
are omitted. -/
def OrcaClient.getQuote (c : OrcaClient)
    (token_in token_out : Pubkey) (amount : Nat) :
    Except SwapError OrcaQuote :=
  match c.get_whirlpool token_in token_out with
  | none => .error .whirlpoolNotFound
  | some pool =>
    let fee_factor :=
      (((10000 : Int) - pool.fee_rate - pool.protocol_fee_rate)
        % 2 ^ 16).toNat
    let amount_with_fees := amount * fee_factor % 2 ^ 128 / 10000
    let amount_out :=
      orcaSimulateSwapOut amount_with_fees pool.liquidity % 2 ^ 64
    let price_impact := amount * 10000 / pool.liquidity
    let minimum_out := amount_out * 99 % 2 ^ 64 / 100
    .ok { amount_in := amount, amount_out := amount_out,
          price_impact_bps := price_impact, pool := pool.address,
          minimum_out := minimum_out }

/-- The unified `Quote` from `src/swap/mod.rs`.  The `transaction` field is
omitted: both conversion helpers set it to the constant
`Transaction::default()`. -/
structure Quote where
  dex_type : DexType
  amount_in : Nat
  amount_out : Nat
  price_impact_bps : Nat
  minimum_out : Nat
deriving DecidableEq, Repr

/-- `SwapEngine::convert_raydium_quote` (mod.rs). -/
def convertRaydiumQuote (q : RaydiumQuote) : Quote :=
  { dex_type := .raydium, amount_in := q.amount_in,
    amount_out := q.amount_out, price_impact_bps := q.price_impact_bps,
    minimum_out := q.minimum_out }

/-- `SwapEngine::convert_orca_quote` (mod.rs). -/
def convertOrcaQuote (q : OrcaQuote) : Quote :=
  { dex_type := .orca, amount_in := q.amount_in,
    amount_out := q.amount_out, price_impact_bps := q.price_impact_bps,
    minimum_out := q.minimum_out }

/-- `SwapEngine` from `src/swap/mod.rs`. -/
structure SwapEngine where
  raydium : RaydiumClient
  orca : OrcaClient
  quote_cache : List ((Pubkey × Pubkey × Nat) × Quote)
deriving Repr

/-- Rust's `Iterator::max_by_key` on `amount_out`: returns the maximum, and
of several equal maxima the LAST one in iteration order. -/
def maxByAmountOut (quotes : List Quote) : Option Quote :=
  quotes.foldl
    (fun acc q =>
      match acc with
      | none => some q
      | some b => if b.amount_out ≤ q.amount_out then some q else some b)
    none

/-- `SwapEngine::get_best_quote` (mod.rs, lines 67–98).  State passing makes
the cache mutation explicit: the result pairs the returned quote with the
updated engine.  Note the source applies `?` to each per-venue
`get_quote` call, so any adapter error aborts the whole call. -/
def SwapEngine.getBestQuote (e : SwapEngine)
    (token_in token_out : Pubkey) (amount : Nat) :
    Except SwapError (Quote × SwapEngine) :=
  let cache_key := (token_in, token_out, amount)
  match lookupA e.quote_cache cache_key with
  | some q => .ok (q, e)
  | none =>
    match e.raydium.getQuote token_in token_out amount with
    | .error er => .error er
    | .ok raydium_quote =>
      match e.orca.getQuote token_in token_out amount with
      | .error er => .error er
      | .ok orca_quote =>
        let quotes := [convertRaydiumQuote raydium_quote,
                       convertOrcaQuote orca_quote]
        match maxByAmountOut quotes with
        | none => .error .noValidQuotes
        | some best =>
          .ok (best,
               { e with quote_cache := (cache_key, best) :: e.quote_cache })

/-- `SwapRoute` from `src/lib.rs`; the constant `transaction` field is
omitted as for `Quote`. -/
structure SwapRoute where
  token_in : Pubkey
  token_out : Pubkey
  amount_in : Nat
  amount_out : Nat
  price_impact_bps : Nat
  dex_type : DexType
deriving DecidableEq, Repr

/-- `SwapRecord` from `src/agent/memory.rs`; the `signature` field (always
set to the empty string by `add_swap`) is omitted. -/
structure SwapRecord where
  timestamp : Nat
  token_in : Pubkey
  token_out : Pubkey
  amount_in : Nat
  amount_out : Nat
  dex_type : DexType
  success : Bool
  price_impact_bps : Nat
deriving DecidableEq, Repr

/-- `RouteMetrics` from `src/agent/memory.rs`; the three f64 fields are
modelled as exact rationals. -/
structure RouteMetrics where
  total_swaps : Nat
  successful_swaps : Nat
  avg_price_impact : ℚ
  best_rate : ℚ
  worst_rate : ℚ
  last_update : Nat
deriving DecidableEq, Repr

/-- `RouteMetrics::default()`: all fields zero. -/
def RouteMetrics.zero : RouteMetrics :=
  { total_swaps := 0, successful_swaps := 0, avg_price_impact := 0,
    best_rate := 0, worst_rate := 0, last_update := 0 }

/-- The body of `Memory::update_metrics` acting on one `RouteMetrics` entry
(memory.rs, lines 152–174): increments the counters, folds the rate into
`best_rate`/`worst_rate`, and updates `avg_price_impact` by the
incremental-mean formula with the post-increment count. -/
def RouteMetrics.updateWith (m : RouteMetrics) (r : SwapRecord) :
    RouteMetrics :=
  let total_swaps := m.total_swaps + 1
  let successful_swaps :=
    if r.success then m.successful_swaps + 1 else m.successful_swaps
  let rate : ℚ := (r.amount_out : ℚ) / (r.amount_in : ℚ)
  let best_rate := max m.best_rate rate
  let worst_rate := if m.worst_rate = 0 then rate else min m.worst_rate rate
  let avg_price_impact :=
    (m.avg_price_impact * ((total_swaps - 1 : Nat) : ℚ)
      + (r.price_impact_bps : ℚ)) / (total_swaps : ℚ)
  { total_swaps := total_swaps, successful_swaps := successful_swaps,
    avg_price_impact := avg_price_impact, best_rate := best_rate,
    worst_rate := worst_rate, last_update := r.timestamp }

/-- `Memory` from `src/agent/memory.rs`. -/
structure Memory where
  records : List SwapRecord
  metrics : List ((Pubkey × Pubkey × DexType) × RouteMetrics)
  max_records : Nat
deriving Repr

/-- `Memory::new(max_records)`. -/
def Memory.new (max_records : Nat) : Memory :=
  { records := [], metrics := [], max_records := max_records }

/-- The `SwapRecord` that `Memory::add_swap` builds from a route, a success
flag and the current timestamp. -/
def SwapRoute.toRecord (route : SwapRoute) (success : Bool)
    (timestamp : Nat) : SwapRecord :=
  { timestamp := timestamp, token_in := route.token_in,
    token_out := route.token_out, amount_in := route.amount_in,
    amount_out := route.amount_out, dex_type := route.dex_type,
    success := success, price_impact_bps := route.price_impact_bps }

/-- `Memory::update_metrics` (memory.rs): `entry(key).or_default()` then the
in-place update, modelled as a shadowing insert at the front. -/
def Memory.updateMetrics (m : Memory) (r : SwapRecord) :
    List ((Pubkey × Pubkey × DexType) × RouteMetrics) :=
  let key := (r.token_in, r.token_out, r.dex_type)
  (key, ((lookupA m.metrics key).getD RouteMetrics.zero).updateWith r)
    :: m.metrics

/-- `Memory::add_swap` (memory.rs, lines 81–109), with the timestamp passed
explicitly (the source reads the system clock; its `ClockError` path returns
an `Err` and is outside the modelled fragment).  Returns `none` exactly when
the source panics: `self.records.remove(0)` with `records` empty, which
happens iff `records.len() ≥ max_records` holds with an empty vector. -/
def Memory.addSwap (m : Memory) (route : SwapRoute) (success : Bool)
    (timestamp : Nat) : Option Memory :=
  let record := route.toRecord success timestamp
  let metrics := m.updateMetrics record
  if m.records.length ≥ m.max_records then
    match m.records with
    | [] => none
    | _ :: rest =>
      some { records := rest ++ [record], metrics := metrics,
             max_records := m.max_records }
  else
    some { records := m.records ++ [record], metrics := metrics,
           max_records := m.max_records }

/-- Iterated `Memory::add_swap` over a list of
`(route, success, timestamp)` inputs; `none` as soon as one call panics. -/
def Memory.addMany (m : Memory) :
    List (SwapRoute × Bool × Nat) → Option Memory
  | [] => some m
  | x :: xs =>
    match m.addSwap x.1 x.2.1 x.2.2 with
    | none => none
    | some m' => m'.addMany xs

/-- `Memory::get_relevant_swaps` (memory.rs): a copy of the metrics for the
key, or the zero default when never observed. -/
def Memory.getRelevantSwaps (m : Memory)
    (token_in token_out : Pubkey) (dex_type : DexType) : RouteMetrics :=
  (lookupA m.metrics (token_in, token_out, dex_type)).getD RouteMetrics.zero

/-- `Memory::get_success_rate` (memory.rs, lines 138–149):
`successful_swaps / total_swaps`, and 0 when `total_swaps == 0`. -/
def Memory.getSuccessRate (m : Memory)
    (token_in token_out : Pubkey) (dex_type : DexType) : ℚ :=
  let metrics := m.getRelevantSwaps token_in token_out dex_type
  if metrics.total_swaps = 0 then 0
  else (metrics.successful_swaps : ℚ) / (metrics.total_swaps : ℚ)

/-- The memories reachable by the source's API: a fresh `Memory::new`
followed by any sequence of non-panicking `add_swap` calls. -/
inductive Memory.Reachable : Memory → Prop where
  | new (c : Nat) : Memory.Reachable (Memory.new c)
  | step {m m' : Memory} (route : SwapRoute) (success : Bool) (ts : Nat) :
      Memory.Reachable m → m.addSwap route success ts = some m' →
      Memory.Reachable m'

/-! ## Concrete fixtures used by witnesses and counterexamples -/

/-- A route used as concrete input: pair (1, 2) on Raydium, impact 5 bps. -/
def routeA : SwapRoute :=
  { token_in := 1, token_out := 2, amount_in := 1, amount_out := 1,
    price_impact_bps := 5, dex_type := .raydium }

/-- A second route for the same key, impact 7 bps. -/
def routeB : SwapRoute :=
  { token_in := 1, token_out := 2, amount_in := 1, amount_out := 1,
    price_impact_bps := 7, dex_type := .raydium }

/-- Raydium pool for pair (1, 2): reserves (1000, 1900), zero fee. -/
def poolR : PoolState :=
  { address := 12, token_a := 1, token_b := 2, reserve_a := 1000,
    reserve_b := 1900, fees_bps := 0 }

/-- Orca whirlpool for pair (1, 2) with liquidity 980·10⁹ and zero fees. -/
def poolW : WhirlpoolState :=
  { address := 79, token_a := 1, token_b := 2, tick_current_index := 0,
    tick_spacing := 8, fee_rate := 0, protocol_fee_rate := 0,
    liquidity := 980 * 10 ^ 9 }

/-- The Raydium quote `poolR` yields for input 1000 (computed output 950). -/
def rqW : RaydiumQuote :=
  { amount_in := 1000, amount_out := 950, price_impact_bps := 10000,
    pool := 12, minimum_out := 940 }

/-- The Orca quote `poolW` yields for input 1000 (computed output 980). -/
def oqW : OrcaQuote :=
  { amount_in := 1000, amount_out := 980, price_impact_bps := 0,
    pool := 79, minimum_out := 970 }

/-! ## Helper lemmas -/

/-- The hard-coded 1% slippage `a * 99 / 100` agrees with the spec formula
`a * (10000 - 100) / 10000`. -/
theorem slippage_eq_spec (a : Nat) :
    a * 99 / 100 = a * (10000 - 100) / 10000 := by
  have h1 : a * (10000 - 100) = a * 99 * 100 := by ring_nf
  have h2 : (10000 : Nat) = 100 * 100 := by norm_num
  rw [h1, h2, Nat.mul_div_mul_right _ _ (by norm_num : (0 : ℕ) < 100)]

/-- The 1% slippage minimum never exceeds the quoted output. -/
theorem slippage_le (a : Nat) : a * 99 / 100 ≤ a := by
  have h : a * 99 ≤ 100 * a := by omega
  exact Nat.div_le_of_le_mul h


/-! ## C1: constant-product quote formula -/

/-- C4 (refuted by the code): `Client::calculate_output` performs its
products directly in `u64`.  At the valid 64-bit input
`amount_in = 2⁶⁰`, reserves `(10⁹, 10⁹)`, fee 30 bps, the very first
intermediate `amount_in * (10000 - fees_bps)` exceeds `u64::MAX`, so the
intermediates do not fit in 64 bits; under wrap-around (release) semantics
the computed output differs from the exact constant-product value, and the
function still returns `Ok` — no `InsufficientLiquidity`-class error exists
on this path (in debug builds the same overflow panics). -/
theorem calculate_output_overflows_u64 :
    ¬ calculateOutputFitsU64 (2 ^ 60) 1000000000 1000000000 30 ∧
    calculateOutputWrapped (2 ^ 60) 1000000000 1000000000 30
      ≠ (calculateOutput (2 ^ 60) 1000000000 1000000000 30).1 := by
  refine ⟨?_, ?_⟩ <;> decide

/-! ## C7: minimum output under the default 1% slippage -/

/-- The wrapped u64 slippage value never exceeds the quoted output, even
when `amount_out * 99` overflows. -/
theorem wrapped_slippage_le (a : Nat) : a * 99 % 2 ^ 64 / 100 ≤ a :=
  le_trans (Nat.div_le_div_right (Nat.mod_le _ _)) (slippage_le a)

/-- When `amount_out * 99` fits in u64, the wrapped slippage value equals
the spec's floor formula. -/
theorem wrapped_slippage_eq (a : Nat) (h : a * 99 ≤ u64Max) :
    a * 99 % 2 ^ 64 / 100 = a * (10000 - 100) / 10000 := by
  rw [Nat.mod_eq_of_lt (by unfold u64Max at h; omega)]
  exact slippage_eq_spec a

/-- Pool making the Raydium adapter produce an `amount_out` large enough
to overflow the u64 slippage product `amount_out * 99`. -/
def poolOvf : PoolState :=
  { address := 13, token_a := 1, token_b := 2, reserve_a := 1,
    reserve_b := 2 ^ 62, fees_bps := 0 }

/-- Raydium client holding only `poolOvf`. -/
def clientOvf : RaydiumClient := { pools := [((1, 2), poolOvf)] }

/-- C7 as stated (for every produced quote) is refuted: on `poolOvf` with
input 2 the adapter produces `amount_out = ⌊2⁶³/3⌋ = 3074457345618258602`,
whose slippage product `amount_out * 99` overflows u64 (raydium.rs line
92); the release-mode `minimum_out` is the wrapped 92233720368547757
(debug builds panic), not the claimed
`⌊amount_out·(10000−100)/10000⌋ = 3043712772162076015`. -/
theorem minimum_out_formula_counterexample :
    (clientOvf.getQuote 1 2 2).toOption.map
        (fun q => (q.amount_out, q.minimum_out))
      = some (3074457345618258602, 92233720368547757) ∧
    (92233720368547757 : Nat)
      ≠ 3074457345618258602 * (10000 - 100) / 10000 :=
  ⟨by decide, by decide⟩

/-- C7 (amended): every quote produced by a Raydium or Orca adapter has
`minimum_out ≤ amount_out` unconditionally, and whenever the u64 slippage
product `amount_out * 99` fits in 64 bits (the source hard-codes
`amount_out * 99 / 100`, debug-panicking or release-wrapping beyond that),
`minimum_out = ⌊amount_out · (10000 − 100) / 10000⌋` — the default
slippage of 100 bps. -/
theorem adapter_minimum_out_slippage :
    (∀ (c : RaydiumClient) (token_in token_out : Pubkey) (amount : Nat)
        (q : RaydiumQuote),
      c.getQuote token_in token_out amount = Except.ok q →
      q.minimum_out ≤ q.amount_out ∧
      (q.amount_out * 99 ≤ u64Max →
        q.minimum_out = q.amount_out * (10000 - 100) / 10000)) ∧
    (∀ (c : OrcaClient) (token_in token_out : Pubkey) (amount : Nat)
        (q : OrcaQuote),
      c.getQuote token_in token_out amount = Except.ok q →
      q.minimum_out ≤ q.amount_out ∧
      (q.amount_out * 99 ≤ u64Max →
        q.minimum_out = q.amount_out * (10000 - 100) / 10000)) := by
  constructor
  · intro c token_in token_out amount q h
    unfold RaydiumClient.getQuote at h
    cases hp : c.get_pool token_in token_out with
    | none => rw [hp] at h; exact absurd h (by simp)
    | some pool =>
      rw [hp] at h
      simp only [Except.ok.injEq] at h
      subst h
      exact ⟨wrapped_slippage_le _, fun hfit => wrapped_slippage_eq _ hfit⟩
  · intro c token_in token_out amount q h
    unfold OrcaClient.getQuote at h
    cases hp : c.get_whirlpool token_in token_out with
    | none => rw [hp] at h; exact absurd h (by simp)
    | some pool =>
      rw [hp] at h
      simp only [Except.ok.injEq] at h
      subst h
      exact ⟨wrapped_slippage_le _, fun hfit => wrapped_slippage_eq _ hfit⟩

/-- Raydium client holding only `poolR`. -/
def clientR : RaydiumClient := { pools := [((1, 2), poolR)] }

/-- Orca client holding only `poolW`. -/
def clientW : OrcaClient := { whirlpools := [((1, 2), poolW)] }

/-- Witness for the amended C7 at the concrete clients `clientR`/`clientW`
and input 1000: the produced quotes are `rqW`/`oqW`, their slippage
products fit in u64, and the minimum outputs satisfy the slippage formula
(940 = ⌊950·9900/10000⌋, 970 = ⌊980·9900/10000⌋). -/
theorem adapter_minimum_out_slippage_witness :
    clientR.getQuote 1 2 1000 = Except.ok rqW ∧
    rqW.amount_out * 99 ≤ u64Max ∧
    (rqW.minimum_out ≤ rqW.amount_out ∧
      rqW.minimum_out = rqW.amount_out * (10000 - 100) / 10000) ∧
    clientW.getQuote 1 2 1000 = Except.ok oqW ∧
    oqW.amount_out * 99 ≤ u64Max ∧
    (oqW.minimum_out ≤ oqW.amount_out ∧
      oqW.minimum_out = oqW.amount_out * (10000 - 100) / 10000) :=
  ⟨rfl, by decide,
   ⟨(adapter_minimum_out_slippage.1 clientR 1 2 1000 rqW rfl).1,
    (adapter_minimum_out_slippage.1 clientR 1 2 1000 rqW rfl).2
      (by decide)⟩,
   rfl, by decide,
   ⟨(adapter_minimum_out_slippage.2 clientW 1 2 1000 oqW rfl).1,
    (adapter_minimum_out_slippage.2 clientW 1 2 1000 oqW rfl).2
      (by decide)⟩⟩

/-! ## Memory Store lemmas -/

/-- One non-panicking `add_swap` step, described explicitly: when the record
sequence is at (or beyond) capacity at least 1, the oldest record is dropped
before appending; below capacity the record is simply appended. -/
theorem Memory.addSwap_eq_of_cap {m : Memory} (hcap : 1 ≤ m.max_records)
    (route : SwapRoute) (success : Bool) (ts : Nat) :
    m.addSwap route success ts
      = some { records :=
                 (if m.max_records ≤ m.records.length then m.records.tail
                  else m.records) ++ [route.toRecord success ts],
               metrics := m.updateMetrics (route.toRecord success ts),
               max_records := m.max_records } := by
  unfold Memory.addSwap
  by_cases hfull : m.records.length ≥ m.max_records
  · rw [if_pos hfull, if_pos hfull]
    cases hrec : m.records with
    | nil => rw [hrec] at hfull; simp at hfull; omega
    | cons a rest => simp [hrec]
  · rw [if_neg hfull, if_neg hfull]

/-- Any successful `add_swap` updates the metrics map by
`Memory::update_metrics`, whatever the record-eviction branch did. -/
theorem Memory.addSwap_metrics_eq {m m' : Memory} {route : SwapRoute}
    {success : Bool} {ts : Nat}
    (h : m.addSwap route success ts = some m') :
    m'.metrics = m.updateMetrics (route.toRecord success ts) ∧
    m'.max_records = m.max_records := by
  unfold Memory.addSwap at h
  by_cases hfull : m.records.length ≥ m.max_records
  · rw [if_pos hfull] at h
    cases hrec : m.records with
    | nil => rw [hrec] at h; cases h
    | cons a rest =>
      rw [hrec] at h
      cases h
      exact ⟨rfl, rfl⟩
  · rw [if_neg hfull] at h
    cases h
    exact ⟨rfl, rfl⟩

/-! ## C10: capacity 0 makes add_swap panic -/

/-- C10: with capacity 0 the first `add_swap` hits
`self.records.remove(0)` on an empty vector and panics (modelled as
`none`); with capacity at least 1 `add_swap` never panics. -/
theorem addSwap_panics_iff_capacity_zero :
    (∀ (route : SwapRoute) (success : Bool) (ts : Nat),
      (Memory.new 0).addSwap route success ts = none) ∧
    (∀ (m : Memory) (route : SwapRoute) (success : Bool) (ts : Nat),
      1 ≤ m.max_records → (m.addSwap route success ts).isSome = true) := by
  constructor
  · intro route success ts; rfl
  · intro m route success ts hcap
    rw [Memory.addSwap_eq_of_cap hcap]
    rfl

/-- Witness for C10's totality part at capacity 3. -/
theorem addSwap_panics_iff_capacity_zero_witness :
    1 ≤ (Memory.new 3).max_records ∧
    ((Memory.new 3).addSwap routeA true 0).isSome = true :=
  ⟨by decide,
   addSwap_panics_iff_capacity_zero.2 (Memory.new 3) routeA true 0
     (by decide)⟩

/-! ## C5: FIFO capacity invariant of the record sequence -/

/-- The `SwapRecord` an input triple turns into. -/
def recOf (x : SwapRoute × Bool × Nat) : SwapRecord :=
  x.1.toRecord x.2.1 x.2.2

/-- Iterating `add_swap` from any memory below or at a capacity of at least
1 never panics, keeps the capacity, and leaves exactly the most recent
`capacity` records: the result holds the suffix of
`old records ++ new records` obtained by dropping the overflow. -/
theorem Memory.addMany_records_eq (c : Nat) (hc : 1 ≤ c)
    (inputs : List (SwapRoute × Bool × Nat)) :
    ∀ m : Memory, m.max_records = c → m.records.length ≤ c →
      ∃ m', m.addMany inputs = some m' ∧ m'.max_records = c ∧
        m'.records
          = (m.records ++ inputs.map recOf).drop
              (m.records.length + inputs.length - c) := by
  induction inputs with
  | nil =>
    intro m hmax hlen
    refine ⟨m, rfl, hmax, ?_⟩
    simp [Nat.sub_eq_zero_of_le hlen]
  | cons x xs ih =>
    intro m hmax hlen
    have hcap : 1 ≤ m.max_records := by omega
    rw [Memory.addMany, Memory.addSwap_eq_of_cap hcap x.1 x.2.1 x.2.2]
    by_cases hfull : m.max_records ≤ m.records.length
    · obtain ⟨a, rest, hrec⟩ : ∃ a rest, m.records = a :: rest := by
        cases hr : m.records with
        | nil => rw [hr] at hfull; simp at hfull; omega
        | cons a rest => exact ⟨a, rest, rfl⟩
      have hlenc : rest.length + 1 = c := by
        rw [hrec] at hfull hlen; simp at hfull hlen; omega
      rw [if_pos hfull, hrec]
      obtain ⟨m', hm', hmax', hrecs⟩ :=
        ih { records := rest ++ [recOf x],
             metrics := m.updateMetrics (recOf x),
             max_records := m.max_records }
          hmax (by simp; omega)
      refine ⟨m', by simpa using hm', hmax', ?_⟩
      rw [hrecs]
      dsimp only
      have hA : (rest ++ [recOf x]).length + xs.length - c = xs.length := by
        simp; omega
      have hB : (a :: rest).length + (x :: xs).length - c
          = xs.length + 1 := by simp; omega
      rw [hA, hB]
      simp only [List.map_cons, List.cons_append, List.drop_succ_cons,
        List.append_assoc, List.singleton_append, List.nil_append]
    · rw [if_neg hfull]
      have hlt : m.records.length < c := by omega
      obtain ⟨m', hm', hmax', hrecs⟩ :=
        ih { records := m.records ++ [recOf x],
             metrics := m.updateMetrics (recOf x),
             max_records := m.max_records }
          hmax (by simp; omega)
      refine ⟨m', by simpa using hm', hmax', ?_⟩
      rw [hrecs]
      dsimp only
      have hA : (m.records ++ [recOf x]).length + xs.length - c
          = m.records.length + (x :: xs).length - c := by simp; omega
      rw [hA]
      simp only [List.map_cons, List.append_assoc, List.singleton_append]

/-- C5 as stated is refuted at capacity 0: the claim quantifies over every
capacity fixed at construction, but with capacity 0 and k = 1 the very
first `add_swap` panics (`Vec::remove(0)` on the empty record vector), so no
record sequence of length 0 results. -/
theorem capacity_invariant_counterexample :
    (Memory.new 0).addMany [(routeA, true, 0)] = none := rfl

/-- C5 (amended to capacity ≥ 1): for every capacity c ≥ 1 and k ≥ 1,
after recording c + k swaps the record sequence has length exactly c and
consists of the c most-recently-inserted records in insertion order (the
oldest record is evicted first, FIFO). -/
theorem capacity_invariant_fifo (c k : Nat) (hc : 1 ≤ c) (hk : 1 ≤ k)
    (inputs : List (SwapRoute × Bool × Nat)) (hlen : inputs.length = c + k) :
    ∃ m', (Memory.new c).addMany inputs = some m' ∧
      m'.records = (inputs.map recOf).drop k ∧
      m'.records.length = c := by
  obtain ⟨m', hm', hmax', hrecs⟩ :=
    Memory.addMany_records_eq c hc inputs (Memory.new c) rfl
      (by simp [Memory.new])
  refine ⟨m', hm', ?_, ?_⟩
  · rw [hrecs]
    simp only [Memory.new, List.length_nil, List.nil_append, Nat.zero_add,
      hlen]
    congr 1
    omega
  · rw [hrecs]
    simp only [Memory.new, List.length_nil, List.nil_append, Nat.zero_add,
      hlen, List.length_drop, List.length_map]
    omega

/-- The three inputs of the concrete C5 scenario: capacity 2, k = 1. -/
def inputsC5 : List (SwapRoute × Bool × Nat) :=
  [(routeA, true, 1), (routeA, true, 2), (routeA, true, 3)]

/-- The memory reached after recording `inputsC5` into `Memory.new 2`. -/
def memC5 : Memory :=
  { records := [routeA.toRecord true 2, routeA.toRecord true 3],
    metrics :=
      [((1, 2, .raydium),
        { total_swaps := 3, successful_swaps := 3, avg_price_impact := 5,
          best_rate := 1, worst_rate := 1, last_update := 3 }),
       ((1, 2, .raydium),
        { total_swaps := 2, successful_swaps := 2, avg_price_impact := 5,
          best_rate := 1, worst_rate := 1, last_update := 2 }),
       ((1, 2, .raydium),
        { total_swaps := 1, successful_swaps := 1, avg_price_impact := 5,
          best_rate := 1, worst_rate := 1, last_update := 1 })],
    max_records := 2 }

/-- Witness for the amended C5 at capacity 2 with 3 = 2 + 1 inserts: the
surviving records are the last 2 inserted, in order. -/
theorem capacity_invariant_fifo_witness :
    (Memory.new 2).addMany inputsC5 = some memC5 ∧
    memC5.records = (inputsC5.map recOf).drop 1 ∧
    memC5.records.length = 2 := by
  obtain ⟨m', h1, h2, h3⟩ :=
    capacity_invariant_fifo 2 1 (by norm_num) (by norm_num) inputsC5 rfl
  have hm : m' = memC5 := by
    have hsome : some m' = some memC5 := by
      rw [← h1]
      norm_num [Memory.new, Memory.addMany, Memory.addSwap,
        Memory.updateMetrics, RouteMetrics.updateWith, RouteMetrics.zero,
        SwapRoute.toRecord, routeA, inputsC5, memC5, lookupA]
    exact Option.some.inj hsome
  exact ⟨hm ▸ h1, hm ▸ h2, hm ▸ h3⟩

/-! ## C2: per-venue failure handling in get_best_quote -/

/-- An engine whose Raydium client has no pools while its Orca client can
quote the pair (1, 2). -/
def engineC2 : SwapEngine :=
  { raydium := { pools := [] },
    orca := { whirlpools := [((1, 2), poolW)] },
    quote_cache := [] }

/-- C2 as stated is refuted: on a cache miss where Raydium has no pool for
the pair but Orca quotes it successfully, `get_best_quote` propagates
Raydium's `PoolNotFound` instead of recovering it and returning Orca's
quote — not every venue failed, yet the call fails. -/
theorem best_quote_counterexample :
    SwapEngine.getBestQuote engineC2 1 2 1000
      = Except.error SwapError.poolNotFound ∧
    (engineC2.orca.getQuote 1 2 1000).toOption = some oqW :=
  ⟨rfl, rfl⟩

/-- C2 (amended): on a cache miss `get_best_quote` queries Raydium first
and then Orca, applying `?` to each, so the first per-venue error is
propagated unchanged even when the other venue succeeds; there is no
per-venue recovery and the aggregate "no valid quotes" error is unreachable
— the call returns a quote if and only if every venue succeeds. -/
theorem best_quote_error_propagation (e : SwapEngine)
    (token_in token_out : Pubkey) (amount : Nat)
    (hmiss : lookupA e.quote_cache (token_in, token_out, amount) = none) :
    (∀ er, e.raydium.getQuote token_in token_out amount = Except.error er →
      e.getBestQuote token_in token_out amount = Except.error er) ∧
    (∀ rq er, e.raydium.getQuote token_in token_out amount = Except.ok rq →
      e.orca.getQuote token_in token_out amount = Except.error er →
      e.getBestQuote token_in token_out amount = Except.error er) ∧
    (∀ rq oq, e.raydium.getQuote token_in token_out amount = Except.ok rq →
      e.orca.getQuote token_in token_out amount = Except.ok oq →
      (e.getBestQuote token_in token_out amount).toOption.isSome = true) := by
  refine ⟨?_, ?_, ?_⟩
  · intro er hr
    simp only [SwapEngine.getBestQuote, hmiss, hr]
  · intro rq er hr ho
    simp only [SwapEngine.getBestQuote, hmiss, hr, ho]
  · intro rq oq hr ho
    simp only [SwapEngine.getBestQuote, hmiss, hr, ho, maxByAmountOut,
      List.foldl]
    by_cases hle : (convertRaydiumQuote rq).amount_out
        ≤ (convertOrcaQuote oq).amount_out <;> simp [hle, Except.toOption]

/-- Witness for the amended C2 at `engineC2`: the cache misses and
Raydium's `PoolNotFound` is propagated as the overall result. -/
theorem best_quote_error_propagation_witness :
    lookupA engineC2.quote_cache (1, 2, 1000) = none ∧
    SwapEngine.getBestQuote engineC2 1 2 1000
      = Except.error SwapError.poolNotFound :=
  ⟨rfl,
   (best_quote_error_propagation engineC2 1 2 1000 rfl).1
     SwapError.poolNotFound rfl⟩

/-! ## C3: ranking and tie-breaking of quotes -/

/-- Raydium pool engineered to quote `amount_out = 1` for input 10000 with
price impact 0 bps. -/
def poolRtie : PoolState :=
  { address := 11, token_a := 1, token_b := 2, reserve_a := 10 ^ 9,
    reserve_b := 100001, fees_bps := 0 }

/-- Orca whirlpool engineered to quote `amount_out = 1` for input 10000
with price impact 1 bps. -/
def poolWtie : WhirlpoolState :=
  { address := 78, token_a := 1, token_b := 2, tick_current_index := 0,
    tick_spacing := 8, fee_rate := 0, protocol_fee_rate := 0,
    liquidity := 10 ^ 8 }

/-- Engine whose two venues tie on `amount_out` while Raydium has the
strictly lower price impact. -/
def engineTie : SwapEngine :=
  { raydium := { pools := [((1, 2), poolRtie)] },
    orca := { whirlpools := [((1, 2), poolWtie)] },
    quote_cache := [] }

/-- C3 as stated is refuted: on `engineTie` both venues quote
`amount_out = 1`, Raydium with price impact 0 bps and Orca with 1 bps, yet
`get_best_quote` returns the Orca quote — `max_by_key` keeps the last of
several maxima and ignores price impact entirely, so the claimed
lower-price-impact tie-break does not hold. -/
theorem best_quote_tiebreak_counterexample :
    (engineTie.raydium.getQuote 1 2 10000).toOption.map
        (fun q => (q.amount_out, q.price_impact_bps)) = some (1, 0) ∧
    (engineTie.orca.getQuote 1 2 10000).toOption.map
        (fun q => (q.amount_out, q.price_impact_bps)) = some (1, 1) ∧
    (engineTie.getBestQuote 1 2 10000).toOption.map
        (fun x => x.1.dex_type) = some DexType.orca :=
  ⟨rfl, rfl, rfl⟩

/-- C3 (amended): on a cache miss with both venues quoting successfully,
`get_best_quote` returns the quote with maximal `amount_out`; when the two
quotes tie on `amount_out` the one later in venue enumeration order (Orca,
queried after Raydium) is returned — `max_by_key` keeps the last maximum —
and price impact plays no role.  In particular, across venues returning 950
and 980 the 980 quote is returned tagged with its venue. -/
theorem best_quote_ranking (e : SwapEngine)
    (token_in token_out : Pubkey) (amount : Nat)
    (hmiss : lookupA e.quote_cache (token_in, token_out, amount) = none)
    (rq : RaydiumQuote) (oq : OrcaQuote)
    (hr : e.raydium.getQuote token_in token_out amount = Except.ok rq)
    (ho : e.orca.getQuote token_in token_out amount = Except.ok oq) :
    (e.getBestQuote token_in token_out amount).toOption.map Prod.fst
      = some (if rq.amount_out ≤ oq.amount_out then convertOrcaQuote oq
              else convertRaydiumQuote rq) ∧
    (∀ q e', e.getBestQuote token_in token_out amount = Except.ok (q, e') →
      q.amount_out = max rq.amount_out oq.amount_out) := by
  have hbest : e.getBestQuote token_in token_out amount
      = Except.ok
          (if rq.amount_out ≤ oq.amount_out then convertOrcaQuote oq
           else convertRaydiumQuote rq,
           { e with quote_cache :=
               ((token_in, token_out, amount),
                if rq.amount_out ≤ oq.amount_out then convertOrcaQuote oq
                else convertRaydiumQuote rq) :: e.quote_cache }) := by
    simp only [SwapEngine.getBestQuote, hmiss, hr, ho, maxByAmountOut,
      List.foldl]
    by_cases hle : rq.amount_out ≤ oq.amount_out
    · simp [convertRaydiumQuote, convertOrcaQuote, hle]
    · simp [convertRaydiumQuote, convertOrcaQuote, hle]
  constructor
  · rw [hbest]; rfl
  · intro q e' h
    rw [hbest] at h
    simp only [Except.ok.injEq, Prod.mk.injEq] at h
    obtain ⟨hq, -⟩ := h
    subst hq
    by_cases hle : rq.amount_out ≤ oq.amount_out
    · simp [hle, convertOrcaQuote, Nat.max_eq_right hle]
    · simp [hle, convertRaydiumQuote,
        Nat.max_eq_left (Nat.le_of_not_le hle)]

/-- Engine with `clientR` (quotes 950) and `clientW` (quotes 980). -/
def engineBest : SwapEngine :=
  { raydium := clientR, orca := clientW, quote_cache := [] }

/-- Witness for the amended C3 on `engineBest`: venues quote 950 and 980
and the 980 quote, tagged `orca`, is returned. -/
theorem best_quote_ranking_witness :
    lookupA engineBest.quote_cache (1, 2, 1000) = none ∧
    engineBest.raydium.getQuote 1 2 1000 = Except.ok rqW ∧
    engineBest.orca.getQuote 1 2 1000 = Except.ok oqW ∧
    (engineBest.getBestQuote 1 2 1000).toOption.map Prod.fst
      = some (if rqW.amount_out ≤ oqW.amount_out then convertOrcaQuote oqW
              else convertRaydiumQuote rqW) ∧
    (engineBest.getBestQuote 1 2 1000).toOption.map
      (fun x => (x.1.amount_out, x.1.dex_type)) = some (980, DexType.orca) :=
  ⟨rfl, rfl, rfl,
   (best_quote_ranking engineBest 1 2 1000 rfl rqW oqW rfl rfl).1, rfl⟩

/-! ## C6: cache round-trip idempotence -/

/-- C6: if `get_best_quote` returns quote `q` leaving engine state `e'`,
then the winning quote is in `e'`'s cache under the call's key, and an
immediately repeated call with identical inputs and unchanged liquidity
state returns the bit-identical quote `q` (cache hit) without further state
change. -/
theorem best_quote_cache_idempotent (e e' : SwapEngine)
    (token_in token_out : Pubkey) (amount : Nat) (q : Quote)
    (h : e.getBestQuote token_in token_out amount = Except.ok (q, e')) :
    e'.getBestQuote token_in token_out amount = Except.ok (q, e') ∧
    lookupA e'.quote_cache (token_in, token_out, amount) = some q := by
  simp only [SwapEngine.getBestQuote] at h
  cases hcache : lookupA e.quote_cache (token_in, token_out, amount) with
  | some q0 =>
    rw [hcache] at h
    simp only [Except.ok.injEq, Prod.mk.injEq] at h
    obtain ⟨hq, he⟩ := h
    subst hq
    subst he
    refine ⟨?_, hcache⟩
    simp only [SwapEngine.getBestQuote, hcache]
  | none =>
    rw [hcache] at h
    cases hr : e.raydium.getQuote token_in token_out amount with
    | error er => rw [hr] at h; cases h
    | ok rq =>
      rw [hr] at h
      cases ho : e.orca.getQuote token_in token_out amount with
      | error er => rw [ho] at h; cases h
      | ok oq =>
        rw [ho] at h
        simp only [maxByAmountOut, List.foldl] at h
        by_cases hle : (convertRaydiumQuote rq).amount_out
            ≤ (convertOrcaQuote oq).amount_out
        · rw [if_pos hle] at h
          simp only [Except.ok.injEq, Prod.mk.injEq] at h
          obtain ⟨hq, he⟩ := h
          subst hq
          subst he
          constructor
          · simp only [SwapEngine.getBestQuote]
            simp [lookupA]
          · simp [lookupA]
        · rw [if_neg hle] at h
          simp only [Except.ok.injEq, Prod.mk.injEq] at h
          obtain ⟨hq, he⟩ := h
          subst hq
          subst he
          constructor
          · simp only [SwapEngine.getBestQuote]
            simp [lookupA]
          · simp [lookupA]

/-- The quote the first `get_best_quote` call on `engineBest` returns. -/
def quoteBest : Quote :=
  { dex_type := .orca, amount_in := 1000, amount_out := 980,
    price_impact_bps := 0, minimum_out := 970 }

/-- `engineBest` after the first call cached `quoteBest`. -/
def engineBestAfter : SwapEngine :=
  { engineBest with quote_cache := [((1, 2, 1000), quoteBest)] }

/-- Witness for C6 on `engineBest`: the first call returns `quoteBest` and
caches it, and the repeated call returns the identical quote. -/
theorem best_quote_cache_idempotent_witness :
    engineBest.getBestQuote 1 2 1000 = Except.ok (quoteBest, engineBestAfter) ∧
    engineBestAfter.getBestQuote 1 2 1000
      = Except.ok (quoteBest, engineBestAfter) ∧
    lookupA engineBestAfter.quote_cache (1, 2, 1000) = some quoteBest :=
  ⟨rfl,
   (best_quote_cache_idempotent engineBest engineBestAfter 1 2 1000
      quoteBest rfl).1,
   (best_quote_cache_idempotent engineBest engineBestAfter 1 2 1000
      quoteBest rfl).2⟩

/-! ## C8: success rate -/

/-- `update_metrics` preserves `successful_swaps ≤ total_swaps`. -/
theorem RouteMetrics.updateWith_succ_le {m : RouteMetrics} (r : SwapRecord)
    (h : m.successful_swaps ≤ m.total_swaps) :
    (m.updateWith r).successful_swaps ≤ (m.updateWith r).total_swaps := by
  unfold RouteMetrics.updateWith
  dsimp only
  split <;> omega

/-- In every reachable memory, every stored `RouteMetrics` satisfies the
invariant `successful_swaps ≤ total_swaps`. -/
theorem Memory.reachable_succ_le {m : Memory} (h : Memory.Reachable m) :
    ∀ key met, lookupA m.metrics key = some met →
      met.successful_swaps ≤ met.total_swaps := by
  induction h with
  | new c => intro key met hl; cases hl
  | @step mprev mnext route success ts hreach hstep ih =>
    intro key met hl
    obtain ⟨hmet, -⟩ := Memory.addSwap_metrics_eq hstep
    rw [hmet] at hl
    simp only [Memory.updateMetrics, lookupA] at hl
    split at hl
    · obtain rfl : _ = met := Option.some.inj hl
      cases hlook : lookupA mprev.metrics
          ((route.toRecord success ts).token_in,
           (route.toRecord success ts).token_out,
           (route.toRecord success ts).dex_type) with
      | none =>
        simp only [Option.getD_none]
        exact RouteMetrics.updateWith_succ_le _ (by simp [RouteMetrics.zero])
      | some old =>
        simp only [Option.getD_some]
        exact RouteMetrics.updateWith_succ_le _ (ih _ _ hlook)
    · exact ih _ _ hl

/-- C8: for every route key, `get_success_rate` returns
`successful_swaps / total_swaps`, a fraction in [0, 1]; it is exactly 0
when the key was never observed; and after exactly one success and one
failure recorded for the same key (starting from an unobserved key) it is
exactly 1/2. -/
theorem success_rate_correct (m : Memory) (hm : Memory.Reachable m)
    (token_in token_out : Pubkey) (dex_type : DexType) :
    (0 ≤ m.getSuccessRate token_in token_out dex_type ∧
      m.getSuccessRate token_in token_out dex_type ≤ 1) ∧
    (lookupA m.metrics (token_in, token_out, dex_type) = none →
      m.getSuccessRate token_in token_out dex_type = 0) ∧
    (∀ (r : SwapRoute) (t1 t2 : Nat) (m1 m2 : Memory),
      r.token_in = token_in → r.token_out = token_out →
      r.dex_type = dex_type →
      lookupA m.metrics (token_in, token_out, dex_type) = none →
      m.addSwap r true t1 = some m1 → m1.addSwap r false t2 = some m2 →
      m2.getSuccessRate token_in token_out dex_type = 1 / 2) := by
  refine ⟨?_, ?_, ?_⟩
  · unfold Memory.getSuccessRate Memory.getRelevantSwaps
    cases hlook : lookupA m.metrics (token_in, token_out, dex_type) with
    | none => simp [RouteMetrics.zero]
    | some met =>
      simp only [Option.getD_some]
      by_cases h0 : met.total_swaps = 0
      · simp [h0]
      · rw [if_neg h0]
        have hle : met.successful_swaps ≤ met.total_swaps :=
          Memory.reachable_succ_le hm _ _ hlook
        have hpos : (0 : ℚ) < (met.total_swaps : ℚ) := by
          exact_mod_cast Nat.pos_of_ne_zero h0
        constructor
        · positivity
        · rw [div_le_one hpos]
          exact_mod_cast hle
  · intro hnone
    unfold Memory.getSuccessRate Memory.getRelevantSwaps
    rw [hnone]
    simp [RouteMetrics.zero]
  · intro r t1 t2 m1 m2 h1 h2 h3 hnone ha1 ha2
    subst h1; subst h2; subst h3
    obtain ⟨hm2, -⟩ := Memory.addSwap_metrics_eq ha2
    obtain ⟨hm1, -⟩ := Memory.addSwap_metrics_eq ha1
    unfold Memory.getSuccessRate Memory.getRelevantSwaps
    rw [hm2]
    simp only [Memory.updateMetrics, SwapRoute.toRecord, lookupA,
      if_pos rfl]
    rw [hm1]
    simp only [Memory.updateMetrics, SwapRoute.toRecord, lookupA,
      if_pos rfl]
    rw [hnone]
    simp only [Option.getD_none, Option.getD_some]
    norm_num [RouteMetrics.updateWith, RouteMetrics.zero]

/-- Memory after recording one successful `routeA` swap into `Memory.new 5`. -/
def memS1 : Memory :=
  { records := [routeA.toRecord true 10],
    metrics :=
      [((1, 2, .raydium),
        { total_swaps := 1, successful_swaps := 1, avg_price_impact := 5,
          best_rate := 1, worst_rate := 1, last_update := 10 })],
    max_records := 5 }

/-- `memS1` after additionally recording one failed `routeA` swap. -/
def memS2 : Memory :=
  { records := [routeA.toRecord true 10, routeA.toRecord false 11],
    metrics :=
      [((1, 2, .raydium),
        { total_swaps := 2, successful_swaps := 1, avg_price_impact := 5,
          best_rate := 1, worst_rate := 1, last_update := 11 }),
       ((1, 2, .raydium),
        { total_swaps := 1, successful_swaps := 1, avg_price_impact := 5,
          best_rate := 1, worst_rate := 1, last_update := 10 })],
    max_records := 5 }

/-- Witness for C8: on the empty `Memory.new 5` the rate for (1, 2,
Raydium) is 0 and within bounds, and after one success and one failure it
is exactly 1/2. -/
theorem success_rate_correct_witness :
    (0 ≤ (Memory.new 5).getSuccessRate 1 2 DexType.raydium ∧
      (Memory.new 5).getSuccessRate 1 2 DexType.raydium ≤ 1) ∧
    (Memory.new 5).getSuccessRate 1 2 DexType.raydium = 0 ∧
    memS2.getSuccessRate 1 2 DexType.raydium = 1 / 2 :=
  ⟨(success_rate_correct (Memory.new 5) (Memory.Reachable.new 5) 1 2
      DexType.raydium).1,
   (success_rate_correct (Memory.new 5) (Memory.Reachable.new 5) 1 2
      DexType.raydium).2.1 rfl,
   (success_rate_correct (Memory.new 5) (Memory.Reachable.new 5) 1 2
      DexType.raydium).2.2 routeA 10 11 memS1 memS2 rfl rfl rfl rfl
     (by norm_num [Memory.new, Memory.addSwap, Memory.updateMetrics,
        RouteMetrics.updateWith, RouteMetrics.zero, SwapRoute.toRecord,
        routeA, memS1, lookupA])
     (by norm_num [Memory.addSwap, Memory.updateMetrics,
        RouteMetrics.updateWith, RouteMetrics.zero, SwapRoute.toRecord,
        routeA, memS1, memS2, lookupA])⟩

/-! ## C9: incremental mean for avg_price_impact -/

/-- C9: every metrics update sets
`avg' = (avg·(n−1) + newValue) / n` where `n` is the post-increment swap
count, and consequently the first observation for a route key sets
`avg_price_impact` exactly to that record's price impact. -/
theorem avg_price_impact_incremental :
    (∀ (met : RouteMetrics) (r : SwapRecord),
      (met.updateWith r).total_swaps = met.total_swaps + 1 ∧
      (met.updateWith r).avg_price_impact
        = (met.avg_price_impact
              * (((met.updateWith r).total_swaps : ℚ) - 1)
            + (r.price_impact_bps : ℚ))
            / ((met.updateWith r).total_swaps : ℚ)) ∧
    (∀ (m : Memory) (route : SwapRoute) (success : Bool) (ts : Nat)
        (m' : Memory),
      lookupA m.metrics (route.token_in, route.token_out, route.dex_type)
        = none →
      m.addSwap route success ts = some m' →
      (m'.getRelevantSwaps route.token_in route.token_out
          route.dex_type).avg_price_impact
        = (route.price_impact_bps : ℚ)) := by
  constructor
  · intro met r
    unfold RouteMetrics.updateWith
    dsimp only
    refine ⟨rfl, ?_⟩
    rw [Nat.add_sub_cancel]
    push_cast
    ring_nf
  · intro m route success ts m' hnone hadd
    obtain ⟨hmet, -⟩ := Memory.addSwap_metrics_eq hadd
    unfold Memory.getRelevantSwaps
    rw [hmet]
    simp only [Memory.updateMetrics, SwapRoute.toRecord, lookupA,
      if_pos rfl]
    rw [hnone]
    simp only [Option.getD_none]
    norm_num [RouteMetrics.updateWith, RouteMetrics.zero]

/-- Concrete metrics entry used by the C9 witness. -/
def metW : RouteMetrics :=
  { total_swaps := 1, successful_swaps := 1, avg_price_impact := 5,
    best_rate := 1, worst_rate := 1, last_update := 10 }

/-- Concrete record used by the C9 witness (impact 7 bps). -/
def recW : SwapRecord := routeB.toRecord false 11

/-- Witness for C9: updating `metW` (count 1, average 5) with a record of
impact 7 gives count 2 and average `(5·1 + 7)/2 = 6`, and the first
observation for the fresh key of `Memory.new 5` sets the average exactly to
`routeA`'s impact. -/
theorem avg_price_impact_incremental_witness :
    ((metW.updateWith recW).total_swaps = metW.total_swaps + 1 ∧
      (metW.updateWith recW).avg_price_impact
        = (metW.avg_price_impact
              * (((metW.updateWith recW).total_swaps : ℚ) - 1)
            + (recW.price_impact_bps : ℚ))
            / ((metW.updateWith recW).total_swaps : ℚ)) ∧
    (metW.updateWith recW).avg_price_impact = 6 ∧
    (memS1.getRelevantSwaps routeA.token_in routeA.token_out
        routeA.dex_type).avg_price_impact
      = (routeA.price_impact_bps : ℚ) :=
  ⟨avg_price_impact_incremental.1 metW recW,
   by norm_num [RouteMetrics.updateWith, metW, recW, routeB,
     SwapRoute.toRecord],
   avg_price_impact_incremental.2 (Memory.new 5) routeA true 10 memS1 rfl
     (by norm_num [Memory.new, Memory.addSwap, Memory.updateMetrics,
        RouteMetrics.updateWith, RouteMetrics.zero, SwapRoute.toRecord,
        routeA, memS1, lookupA])⟩
